import Mathlib

/-!
Verification of the `jps` atomic shared pointer library (`shared_ptr.h`).

The development shallowly embeds the counter and pointer arithmetic of the
library.  Machine words are modelled as `Nat` with explicit reductions:
a 64-bit value is a `Nat` taken modulo `2^64`, a signed `int32_t` or
`int16_t` is represented by its bit pattern (a `Nat` below `2^32` resp.
`2^16`) together with explicit signed reinterpretation functions.
Atomic read-modify-write operations are embedded by their sequential
(single-thread, interference-free) denotation: a CAS performed against a
freshly loaded value succeeds.  Operations on control blocks performed by
the atomic cell are recorded as an explicit trace of `BlockOp`s.
-/

namespace jps

/-! ## Word and lane primitives -/

/-- Addition of two 64-bit words (`uint64_t` wraparound). -/
def add64 (a b : Nat) : Nat := (a + b) % 2^64

/-- Subtraction of two 64-bit words (`uint64_t` wraparound). -/
def sub64 (a b : Nat) : Nat := (a + (2^64 - b % 2^64)) % 2^64

/-- The 32-bit bit pattern of the negation of a 32-bit value. -/
def neg32 (b : Nat) : Nat := (2^32 - b % 2^32) % 2^32

/-- Signed reinterpretation of a 32-bit pattern (`int32_t` value). -/
def toInt32 (b : Nat) : Int :=
  if b % 2^32 < 2^31 then (b % 2^32 : Int) else (b % 2^32 : Int) - 2^32

/-- Signed reinterpretation of a 16-bit pattern (`int16_t` value). -/
def toInt16 (b : Nat) : Int :=
  if b % 2^16 < 2^15 then (b % 2^16 : Int) else (b % 2^16 : Int) - 2^16

/-- Sign extension of an `int16_t` bit pattern to an `int32_t` bit pattern
(the implicit integral promotion applied when a 16-bit count is passed to a
`paired_counter` component). -/
def sext16 (b : Nat) : Nat :=
  if b % 2^16 < 2^15 then b % 2^16 else 2^32 - 2^16 + b % 2^16

/-- Sign extension of an `int32_t` bit pattern to a full 64-bit word
(the implicit conversion `int32_t -> uint64_t` used by the private
word constructor `paired_counter(uint64_t)`). -/
def sext32to64 (b : Nat) : Nat :=
  if b % 2^32 < 2^31 then b % 2^32 else 2^64 - 2^32 + b % 2^32

/-! ## `paired_counter`

A `paired_counter` packs `cnt2` (unsigned, low 32 bits) and `cnt1`
(signed, high 32 bits) into one 64-bit word (`single { uint32_t cnt2;
int32_t cnt1; }` unioned with `uint64_t word_`, little endian).  We
represent a `paired_counter` value by its word. -/

/-- Word of `paired_counter{c1, c2}` built from component bit patterns
(constructor `paired_counter(int32_t c1, uint32_t c2)`). -/
def pc_word (c1 c2 : Nat) : Nat := c1 % 2^32 * 2^32 + c2 % 2^32

/-- Component `cnt1` (high 32 bits) of a paired-counter word. -/
def get_cnt1 (w : Nat) : Nat := w / 2^32 % 2^32

/-- Component `cnt2` (low 32 bits) of a paired-counter word. -/
def get_cnt2 (w : Nat) : Nat := w % 2^32

/-- Componentwise addition `paired_counter::operator+` (per-lane 32-bit
wraparound, no carry between the lanes). -/
def pc_add (a b : Nat) : Nat :=
  pc_word (get_cnt1 a + get_cnt1 b) (get_cnt2 a + get_cnt2 b)

/-- Componentwise subtraction `paired_counter::operator-` (per-lane 32-bit
wraparound, no borrow between the lanes). -/
def pc_sub (a b : Nat) : Nat :=
  pc_word (get_cnt1 a + neg32 (get_cnt1 b)) (get_cnt2 a + neg32 (get_cnt2 b))

/-- Pointwise strict order `paired_counter::operator>`: `cnt1` compared as
signed `int32_t`, `cnt2` as unsigned. -/
def pc_gt (a b : Nat) : Bool :=
  decide (toInt32 (get_cnt1 b) < toInt32 (get_cnt1 a)) &&
  decide (get_cnt2 b < get_cnt2 a)

/-- Pointwise strict order `paired_counter::operator<`. -/
def pc_lt (a b : Nat) : Bool :=
  decide (toInt32 (get_cnt1 a) < toInt32 (get_cnt1 b)) &&
  decide (get_cnt2 a < get_cnt2 b)

/-! ## `atomic_paired_counter`

The atomic state is the 64-bit word.  `fetch_add`/`fetch_sub` are 64-bit
word operations (so a carry out of the low lane does cross into the high
lane).  Each operation returns the new state paired with the value the
C++ function returns. -/

/-- `atomic_paired_counter::fetch_add`: returns (new state, previous value). -/
def apc_fetch_add (st arg : Nat) : Nat × Nat := (add64 st arg, st)

/-- `atomic_paired_counter::fetch_sub`: returns (new state, previous value). -/
def apc_fetch_sub (st arg : Nat) : Nat × Nat := (sub64 st arg, st)

/-- A 64-bit compare-exchange step: returns (new state, new `expected`,
success flag).  On success the state becomes `des`; on failure `expected`
is overwritten with the observed state. -/
def apc_cas (st exp des : Nat) : Nat × Nat × Bool :=
  if st = exp then (des, exp, true) else (st, st, false)

/-- `atomic_paired_counter::fetch_transfer(int32_t arg)`: for `arg >= 0`
(signed test on the bit pattern `nbits`) it performs
`fetch_add(paired_counter{-arg, uint32_t(arg)})`, otherwise
`fetch_sub(paired_counter{arg, uint32_t(-arg)})`.  Returns
(new state, previous value). -/
def fetch_transfer (st nbits : Nat) : Nat × Nat :=
  if 0 ≤ toInt32 nbits then
    apc_fetch_add st (pc_word (neg32 nbits) nbits)
  else
    apc_fetch_sub st (pc_word nbits (neg32 nbits))

/-- Sequential denotation of
`atomic_paired_counter::compare_exchange_strong_c1(int32_t& expected, int32_t desired, ...)`.
The function loads the word; if `cnt1` differs from `expected` it
publishes the observed `cnt1` and fails.  Otherwise it performs the
full-word CAS `compare_exchange_strong(cur_pair, desired, ...)` — in which
`desired` (an `int32_t`) is implicitly converted to a full
`paired_counter` through `int32_t -> uint64_t` sign extension and the
private word constructor.  Returns (new state, new `expected`, success). -/
def compare_exchange_strong_c1 (st expected desired : Nat) : Nat × Nat × Bool :=
  let cur := st
  if get_cnt1 cur ≠ expected then (st, get_cnt1 cur, false)
  else
    let r := apc_cas st cur (sext32to64 desired)
    (r.1, expected, r.2.2)

/-- Sequential denotation of
`atomic_paired_counter::compare_exchange_strong_c2(uint32_t& expected, uint32_t desired, ...)`.
Here `desired` (a `uint32_t`) is zero-extended to the full word by the
same implicit conversion. -/
def compare_exchange_strong_c2 (st expected desired : Nat) : Nat × Nat × Bool :=
  let cur := st
  if get_cnt2 cur ≠ expected then (st, get_cnt2 cur, false)
  else
    let r := apc_cas st cur (desired % 2^32)
    (r.1, expected, r.2.2)

/-- Sequential denotation of
`atomic_paired_counter::compare_exchange_weak_c1(int32_t& expected, int32_t desired, ...)`.
Sequentially the retry loop collapses: the CAS against the freshly loaded
value succeeds on its first iteration.  The `desired` component undergoes
the same sign-extending conversion to a full word. -/
def compare_exchange_weak_c1 (st expected desired : Nat) : Nat × Nat × Bool :=
  let cur := st
  if get_cnt1 cur ≠ expected then (st, get_cnt1 cur, false)
  else
    let r := apc_cas st cur (sext32to64 desired)
    if r.2.2 then (r.1, expected, true)
    else (r.1, get_cnt1 r.1, false)

/-! ## `counted_ptr` and `atomic_counted_ptr`

A counted pointer packs a 48-bit pointer into the low bits and a signed
16-bit counter into the high 16 bits of a 64-bit word. -/

/-- Word of `counted_ptr{ctr, ptr}` (`make_word(counter, ptr)`); the
counter bit pattern occupies the high 16 bits. -/
def cp_word (ctr ptr : Nat) : Nat := ctr % 2^16 * 2^48 + ptr % 2^48

/-- The 16-bit counter lane of a counted-pointer word. -/
def get_ctr (w : Nat) : Nat := w / 2^48 % 2^16

/-- The 48-bit pointer lane of a counted-pointer word. -/
def get_ptr48 (w : Nat) : Nat := w % 2^48

/-- `counted_ptr::set_ctr`: overwrite the counter lane, keeping the
pointer lane. -/
def set_ctr48 (w c : Nat) : Nat := c % 2^16 * 2^48 + w % 2^48

/-- `counted_ptr::counter()++` on a local copy: increment the 16-bit
counter field in place. -/
def cp_inc_ctr (w : Nat) : Nat := set_ctr48 w (get_ctr w + 1)

/-- `atomic_counted_ptr::fetch_add(int16_t arg)`: 64-bit fetch-add of
`make_word(arg)` = (sign-extended `arg`) shifted into the counter lane,
whose low 48 bits are zero.  Returns (new state, previous value). -/
def acp_fetch_add (st n : Nat) : Nat × Nat := (add64 st (n % 2^16 * 2^48), st)

/-- `atomic_counted_ptr::fetch_sub(int16_t arg)`: 64-bit fetch-sub of
`make_word(arg)`.  Returns (new state, previous value). -/
def acp_fetch_sub (st n : Nat) : Nat × Nat := (sub64 st (n % 2^16 * 2^48), st)

/-- `atomic_counted_ptr::operator++()`: `fetch_add(1).get_ctr() + 1`,
an `int16_t` whose bit pattern is `(old ctr + 1) % 2^16`.  Returns
(new state, returned counter bit pattern). -/
def acp_preinc (st : Nat) : Nat × Nat :=
  let r := acp_fetch_add st 1
  (r.1, (get_ctr r.2 + 1) % 2^16)

/-- `atomic_counted_ptr::operator++(int)`: `fetch_add(1).get_ctr()`.
Returns (new state, returned counter bit pattern). -/
def acp_postinc (st : Nat) : Nat × Nat :=
  let r := acp_fetch_add st 1
  (r.1, get_ctr r.2)

/-- `atomic_counted_ptr::operator--()`: `fetch_sub(1).get_ctr() - 1`. -/
def acp_predec (st : Nat) : Nat × Nat :=
  let r := acp_fetch_sub st 1
  (r.1, (get_ctr r.2 + 2^16 - 1) % 2^16)

/-- `atomic_counted_ptr::operator--(int)`: `fetch_sub(1).get_ctr()`. -/
def acp_postdec (st : Nat) : Nat × Nat :=
  let r := acp_fetch_sub st 1
  (r.1, get_ctr r.2)

/-! ## Control block (`sptr_header_base`)

A block carries two atomic paired counters and the object pointer.  The
virtual hooks `_delete_object` / `_delete_header` are reported as boolean
outcomes of the operations that may fire them. -/

/-- State of one `sptr_header_base`: the `references_` word, the
`weak_references_` word and the `pointer_` field. -/
structure BlockState where
  strong : Nat
  weak : Nat
  pointer : Nat
  deriving DecidableEq

/-- State established by the constructor
`sptr_header_base(T* ptr, bool)`: `references_{{0, 1}}`,
`weak_references_{0u}`. -/
def initial_block (ptr : Nat) : BlockState :=
  { strong := pc_word 0 1, weak := 0, pointer := ptr }

/-- `sptr_header_base::acquire(paired_counter count)`: fetch-add `count`
on the strong counter. -/
def block_acquire (blk : BlockState) (count : Nat) : BlockState :=
  { blk with strong := add64 blk.strong count }

/-- `sptr_header_base::hold(int16_t count)`: fetch-add
`paired_counter{count, 0}` (sign-extended) on the strong counter. -/
def block_hold (blk : BlockState) (count : Nat) : BlockState :=
  { blk with strong := add64 blk.strong (pc_word (sext16 count) 0) }

/-- `sptr_header_base::unhold(int16_t count)`: fetch-sub
`paired_counter{count, 0}` (sign-extended) from the strong counter. -/
def block_unhold (blk : BlockState) (count : Nat) : BlockState :=
  { blk with strong := sub64 blk.strong (pc_word (sext16 count) 0) }

/-- `sptr_header_base::release(paired_counter count)`:
`old = references_.fetch_sub(count)`; if `old == count` the object is
destroyed, and if additionally the weak word is `0` the header is
destroyed.  Returns (new state, object destroyed, header destroyed). -/
def block_release (blk : BlockState) (count : Nat) : BlockState × Bool × Bool :=
  let old := blk.strong
  let blk1 : BlockState := { blk with strong := sub64 blk.strong count }
  if old = count then
    if blk.weak = 0 then (blk1, true, true) else (blk1, true, false)
  else (blk1, false, false)

/-- Sequential denotation of `sptr_header_base::weak_lock`: load the
strong word; fail if `cnt2` is zero; otherwise the CAS installing
`paired_counter{cnt1, cnt2 + 1}` against the freshly loaded value
succeeds.  Returns (new state, success). -/
def weak_lock (blk : BlockState) : BlockState × Bool :=
  let cur := blk.strong
  if get_cnt2 cur = 0 then (blk, false)
  else
    ({ blk with strong := pc_word (get_cnt1 cur) (get_cnt2 cur + 1) }, true)

/-- `sptr_header_base::acquire_weak`: fetch-add `{0, 1}` on the weak
counter. -/
def block_acquire_weak (blk : BlockState) : BlockState :=
  { blk with weak := add64 blk.weak (pc_word 0 1) }

/-- `sptr_header_base::release_weak(paired_counter count)`:
`old = weak_references_.fetch_sub(count)`; the header is destroyed iff
`old == paired_counter{0, 1}` and the strong word is `0`.  Returns
(new state, header destroyed). -/
def block_release_weak (blk : BlockState) (count : Nat) : BlockState × Bool :=
  let old := blk.weak
  let blk1 : BlockState := { blk with weak := sub64 blk.weak count }
  if old = pc_word 0 1 ∧ blk.strong = 0 then (blk1, true) else (blk1, false)

/-! ## Shared and weak handles

A non-atomic handle owns a counted pointer `cp_header_` to a block.  The
heap of blocks is passed explicitly (`Nat -> BlockState`, indexed by the
header address); header address `0` is the null header. -/

/-- A `shared_ptr`: its internal counted pointer word `cp_header_`. -/
structure SharedPtr where
  cp : Nat
  deriving DecidableEq

/-- Operations a handle or cell performs on a control block, recorded as
a trace.  Counts are paired-counter words. -/
inductive BlockOp where
  /-- `p->acquire(count)` -/
  | acquire (p : Nat) (count : Nat)
  /-- `p->unhold(count)` with a 16-bit count bit pattern -/
  | unhold (p : Nat) (count : Nat)
  /-- `p->release(count)` -/
  | release (p : Nat) (count : Nat)
  deriving DecidableEq

/-- Effect of one recorded operation on a block state (ignoring the
destruction outcome of a `release`). -/
def apply_op (blk : BlockState) : BlockOp → BlockState
  | .acquire _ count => block_acquire blk count
  | .unhold _ count => block_unhold blk count
  | .release _ count => (block_release blk count).1

/-- `shared_ptr::shared_ptr(T* ptr)`: a null raw pointer yields the null
handle and allocates no control block; otherwise a fresh
`sptr_header_extern` is allocated at address `freshHdr`.  Returns
(handle, allocated block if any). -/
def sp_from_raw (freshHdr ptr : Nat) : SharedPtr × Option BlockState :=
  if ptr = 0 then (⟨0⟩, none)
  else (⟨cp_word 0 freshHdr⟩, some (initial_block ptr))

/-- `shared_ptr::get()`: null-safe dereference of the block's object
pointer. -/
def sp_get (sp : SharedPtr) (heap : Nat → BlockState) : Nat :=
  if get_ptr48 sp.cp = 0 then 0 else (heap (get_ptr48 sp.cp)).pointer

/-- `shared_ptr::use_count()`: `cnt2` of the block's strong word, `0` for
the null handle. -/
def sp_use_count (sp : SharedPtr) (heap : Nat → BlockState) : Nat :=
  if get_ptr48 sp.cp = 0 then 0 else get_cnt2 (heap (get_ptr48 sp.cp)).strong

/-- `shared_ptr::weak_count()`: `cnt2` of the block's weak word, `0` for
the null handle. -/
def sp_weak_count (sp : SharedPtr) (heap : Nat → BlockState) : Nat :=
  if get_ptr48 sp.cp = 0 then 0 else get_cnt2 (heap (get_ptr48 sp.cp)).weak

/-- `shared_ptr::operator bool()`: `use_count() != 0`. -/
def sp_to_bool (sp : SharedPtr) (heap : Nat → BlockState) : Bool :=
  sp_use_count sp heap != 0

/-- Block operations performed by `shared_ptr::~shared_ptr` (and by the
private `_release` used by `reset`): nothing for the null handle,
otherwise `release({cp.get_ctr(), 1})` on the block. -/
def sp_dtor_ops (sp : SharedPtr) : List BlockOp :=
  if get_ptr48 sp.cp = 0 then []
  else [.release (get_ptr48 sp.cp) (pc_word (sext16 (get_ctr sp.cp)) 1)]

/-- `shared_ptr::reset(T* ptr)`: `_release()` then rebind; a null raw
pointer yields the null handle and allocates no block.  Returns
(ops performed, new handle, allocated block if any). -/
def sp_reset_raw (sp : SharedPtr) (freshHdr ptr : Nat) :
    List BlockOp × SharedPtr × Option BlockState :=
  (sp_dtor_ops sp,
   if ptr = 0 then (⟨0⟩, none)
   else (⟨cp_word 0 freshHdr⟩, some (initial_block ptr)))

/-- `weak_ptr::lock()` over a single referenced block: the null weak
handle returns the null shared handle; otherwise `weak_lock` decides, and
on success the handle `shared_ptr{cp_header_.get_ptr()}` over `(0, hdr)`
is returned.  Returns (new block state, returned handle). -/
def wp_lock (hdr : Nat) (blk : BlockState) : BlockState × SharedPtr :=
  if hdr = 0 then (blk, ⟨0⟩)
  else
    let r := weak_lock blk
    if r.2 then (r.1, ⟨cp_word 0 hdr⟩) else (r.1, ⟨0⟩)

/-! ## Atomic shared cell (`atomic_shared_ptr`)

The cell state is its counted-pointer word `cptr_hdr_`.  Block
operations are recorded as a trace. -/

/-- Sequential denotation of `atomic_shared_ptr::_enter`:
`fetch_add(1)` on the cell, increment the counter of the returned copy;
if the (signed) counter reached `1 << 14` and the pointer is non-null,
normalize: `_try_leave` (a CAS replacing the counter by
`ctr - count = 0`, which succeeds against the freshly updated cell),
`set_ctr(0)`, then `unhold(get_ctr())` on the block — note `get_ctr()`
is read after `set_ctr(0)`.  Returns (new cell word, returned
counted-pointer copy, block-op trace). -/
def asp_enter (cell : Nat) : Nat × Nat × List BlockOp :=
  let old := cell
  let cell1 := add64 cell (cp_word 1 0)
  let ctrl := cp_inc_ctr old
  if (16384 : Int) ≤ toInt16 (get_ctr ctrl) ∧ get_ptr48 ctrl ≠ 0 then
    let count := get_ctr ctrl
    let desired := set_ctr48 ctrl ((get_ctr ctrl + 2^16 - count % 2^16) % 2^16)
    if cell1 = ctrl then
      let ctrl2 := set_ctr48 ctrl 0
      (desired, ctrl2, [.unhold (get_ptr48 ctrl2) (get_ctr ctrl2)])
    else (cell1, ctrl, [])
  else (cell1, ctrl, [])

/-- `atomic_shared_ptr::load`: `_enter`, then if the observed pointer is
null return the null handle; otherwise `acquire({1, 1})` on the observed
block and return `shared_ptr` over `(0, p)`.  Returns (new cell word,
returned handle, block-op trace). -/
def asp_load (cell : Nat) : Nat × SharedPtr × List BlockOp :=
  let r := asp_enter cell
  let ctrl := r.2.1
  if get_ptr48 ctrl = 0 then (r.1, ⟨0⟩, r.2.2)
  else (r.1, ⟨cp_word 0 (get_ptr48 ctrl)⟩,
        r.2.2 ++ [.acquire (get_ptr48 ctrl) (pc_word 1 1)])

/-! ## Weak-counter accounting

The operations of the library that touch a block's `weak_references_`
word are: the constructor (`weak_references_{0u}`), `acquire_weak`
(performed whenever a `weak_ptr` binds the block: copy constructor,
construction from a `shared_ptr`, and assignment), and
`release_weak({ctr, 1})` with `ctr = 0` (performed by `~weak_ptr`,
assignment, and `reset` of a bound `weak_ptr`; non-atomic handles always
carry a zero local counter).  `WeakTrace w n` says that weak word `w`
together with `n` live weak handles is reachable through these
operations. -/
inductive WeakTrace : Nat → Nat → Prop
  /-- `sptr_header_base` constructor: weak word `0`, no live handles. -/
  | init : WeakTrace 0 0
  /-- a weak handle binds the block: `acquire_weak` fetch-adds `{0, 1}`. -/
  | acq {w n} : WeakTrace w n → WeakTrace (add64 w (pc_word 0 1)) (n + 1)
  /-- a live weak handle unbinds: `release_weak({0, 1})` fetch-subs `{0, 1}`. -/
  | rel {w n} : WeakTrace w n → 0 < n → WeakTrace (sub64 w (pc_word 0 1)) (n - 1)

/-! ## Theorems -/

/-- Helper: along any weak-counter trace the weak word is the number of
live weak handles reduced modulo `2^64`. -/
theorem weakTrace_word {w n : Nat} (h : WeakTrace w n) : w = n % 2^64 := by
  induction h with
  | init => rfl
  | acq _ ih =>
      subst ih
      unfold add64 pc_word
      omega
  | rel _ hn ih =>
      subst ih
      unfold sub64 pc_word
      omega

/-- Helper: `cnt1` of a constructed paired counter. -/
theorem get_cnt1_pc (x y : Nat) : get_cnt1 (pc_word x y) = x % 2^32 := by
  simp only [pc_word, get_cnt1]
  omega

/-- Helper: `cnt2` of a constructed paired counter. -/
theorem get_cnt2_pc (x y : Nat) : get_cnt2 (pc_word x y) = y % 2^32 := by
  simp only [pc_word, get_cnt2]
  omega

/-- Helper: a constructed paired counter fits in 64 bits. -/
theorem pc_word_lt (x y : Nat) : pc_word x y < 2^64 := by
  simp only [pc_word]
  omega

/-- Helper: low lane of a 64-bit addition. -/
theorem get_cnt2_add64 (a b : Nat) :
    get_cnt2 (add64 a b) = (get_cnt2 a + get_cnt2 b) % 2^32 := by
  simp only [add64, get_cnt2]
  omega

/-- Helper: high lane of a 64-bit addition when the low lanes do not
carry. -/
theorem get_cnt1_add64 (a b : Nat) (ha : a < 2^64) (hb : b < 2^64)
    (h : get_cnt2 a + get_cnt2 b < 2^32) :
    get_cnt1 (add64 a b) = (get_cnt1 a + get_cnt1 b) % 2^32 := by
  simp only [add64, get_cnt1, get_cnt2] at h ⊢
  omega

/-- Helper: low lane of a 64-bit subtraction. -/
theorem get_cnt2_sub64 (a b : Nat) :
    get_cnt2 (sub64 a b) = (get_cnt2 a + (2^32 - get_cnt2 b)) % 2^32 := by
  simp only [sub64, get_cnt2]
  omega

/-- Helper: high lane of a 64-bit subtraction when the low lanes do not
borrow. -/
theorem get_cnt1_sub64 (a b : Nat) (ha : a < 2^64) (hb : b < 2^64)
    (h : get_cnt2 b ≤ get_cnt2 a) :
    get_cnt1 (sub64 a b) = (get_cnt1 a + (2^32 - get_cnt1 b)) % 2^32 := by
  simp only [sub64, get_cnt1, get_cnt2] at h ⊢
  omega

/-- C1: for every cell state below the normalization threshold, `load`
performs `_enter` (one increment of the cell's 16-bit counter, pointer
lane untouched); if the observed pointer is null it returns the null
handle and performs no block operation; otherwise it performs exactly
`acquire(PC(1,1))` on the observed block and returns a handle over
`(0, p)`. -/
theorem load_spec (cell : Nat) (_hcell : cell < 2^64)
    (hno : get_ptr48 cell = 0 ∨ toInt16 ((get_ctr cell + 1) % 2^16) < 16384) :
    (asp_load cell).1 = add64 cell (cp_word 1 0) ∧
    get_ptr48 (asp_load cell).1 = get_ptr48 cell ∧
    get_ctr (asp_load cell).1 = (get_ctr cell + 1) % 2^16 ∧
    (get_ptr48 cell = 0 → (asp_load cell).2.1 = ⟨0⟩ ∧ (asp_load cell).2.2 = []) ∧
    (get_ptr48 cell ≠ 0 →
      (asp_load cell).2.1 = ⟨cp_word 0 (get_ptr48 cell)⟩ ∧
      (asp_load cell).2.2 = [.acquire (get_ptr48 cell) (pc_word 1 1)]) := by
  have hptr : get_ptr48 (cp_inc_ctr cell) = get_ptr48 cell := by
    simp only [cp_inc_ctr, set_ctr48, get_ptr48, get_ctr]
    omega
  have hctr : get_ctr (cp_inc_ctr cell) = (get_ctr cell + 1) % 2^16 := by
    simp only [cp_inc_ctr, set_ctr48, get_ptr48, get_ctr]
    omega
  have hcond : ¬((16384 : Int) ≤ toInt16 (get_ctr (cp_inc_ctr cell)) ∧
      get_ptr48 (cp_inc_ctr cell) ≠ 0) := by
    rcases hno with h | h
    · rw [hptr]
      simp [h]
    · rw [hctr]
      rintro ⟨h1, -⟩
      exact absurd h1 (not_le.mpr h)
  have henter : asp_enter cell = (add64 cell (cp_word 1 0), cp_inc_ctr cell, []) := by
    simp only [asp_enter]
    rw [if_neg hcond]
  have h1 : get_ptr48 (add64 cell (cp_word 1 0)) = get_ptr48 cell := by
    simp only [add64, cp_word, get_ptr48]
    omega
  have h2 : get_ctr (add64 cell (cp_word 1 0)) = (get_ctr cell + 1) % 2^16 := by
    simp only [add64, cp_word, get_ptr48, get_ctr]
    omega
  simp only [asp_load, henter]
  rw [hptr]
  by_cases hp : get_ptr48 cell = 0
  · simp [hp, h1, h2]
  · simp [hp, h1, h2]

/-- Witness for `load_spec` at the concrete cell `(2, 5)`. -/
theorem load_spec_witness :
    (asp_load (cp_word 2 5)).2.2 =
      [.acquire (get_ptr48 (cp_word 2 5)) (pc_word 1 1)] :=
  ((load_spec (cp_word 2 5) (by decide) (Or.inr (by decide))).2.2.2.2
    (by decide)).2

/-- C2: at a cell whose counter reaches the threshold, `_enter`
normalizes, but because `set_ctr(0)` runs before `unhold(get_ctr())` the
block receives `unhold(0)`: the call leaves the block's strong counter
untouched even though the cell gave up `16384` counter credits (its
counter went from `16384` to `0`). -/
theorem enter_normalization_unhold_zero :
    (asp_enter (cp_word 16383 8)).2.2 = [.unhold 8 0] ∧
    get_ctr (add64 (cp_word 16383 8) (cp_word 1 0)) = 16384 ∧
    (asp_enter (cp_word 16383 8)).1 = cp_word 0 8 ∧
    block_unhold ⟨pc_word 3 5, 0, 9⟩ 0 = ⟨pc_word 3 5, 0, 9⟩ ∧
    (16384 : Nat) ≠ 0 := by decide

/-- C3: `release(PC(c1, c2))` subtracts the count from the strong word
by a 64-bit fetch-sub, leaves the weak word and pointer alone, destroys
the object exactly when the pre-subtraction strong word equals the count
(equivalently, when the strong word reaches zero), and destroys the
header exactly when additionally the weak word is zero. -/
theorem release_spec (blk : BlockState) (c1 c2 : Nat) (hs : blk.strong < 2^64) :
    (block_release blk (pc_word c1 c2)).1.strong =
      sub64 blk.strong (pc_word c1 c2) ∧
    (block_release blk (pc_word c1 c2)).1.weak = blk.weak ∧
    (block_release blk (pc_word c1 c2)).1.pointer = blk.pointer ∧
    ((block_release blk (pc_word c1 c2)).2.1 = true ↔
      blk.strong = pc_word c1 c2) ∧
    ((block_release blk (pc_word c1 c2)).2.1 = true ↔
      (block_release blk (pc_word c1 c2)).1.strong = 0) ∧
    ((block_release blk (pc_word c1 c2)).2.2 = true ↔
      blk.strong = pc_word c1 c2 ∧ blk.weak = 0) := by
  have hz : sub64 blk.strong (pc_word c1 c2) = 0 ↔ blk.strong = pc_word c1 c2 := by
    simp only [sub64, pc_word]
    omega
  have hself : sub64 (pc_word c1 c2) (pc_word c1 c2) = 0 := by
    simp only [sub64, pc_word]
    omega
  by_cases ho : blk.strong = pc_word c1 c2 <;>
    by_cases hw : blk.weak = 0 <;>
      simp [block_release, ho, hw, hz, hself]

/-- Witness for `release_spec` at a block holding its last strong
reference. -/
theorem release_spec_witness :
    (block_release ⟨pc_word 0 1, 0, 9⟩ (pc_word 0 1)).2.2 = true ↔
      (pc_word 0 1 = pc_word 0 1 ∧ (0 : Nat) = 0) :=
  (release_spec ⟨pc_word 0 1, 0, 9⟩ 0 1 (by decide)).2.2.2.2.2

/-- C4: `weak_lock` (and `weak_ptr::lock` over a non-null handle)
succeeds exactly when `strong.cnt2` is positive; on success `cnt2` grows
by one (32-bit wraparound) with `cnt1` and the weak word untouched and a
non-null handle over `(0, hdr)` is returned; on failure the block is
untouched and the null handle is returned. -/
theorem weak_lock_spec (hdr : Nat) (blk : BlockState)
    (hh : hdr ≠ 0) (hh48 : hdr < 2^48) :
    ((wp_lock hdr blk).2 ≠ (⟨0⟩ : SharedPtr) ↔ 0 < get_cnt2 blk.strong) ∧
    (0 < get_cnt2 blk.strong →
       (wp_lock hdr blk).2 = ⟨cp_word 0 hdr⟩ ∧
       get_ptr48 ((wp_lock hdr blk).2).cp = hdr ∧
       get_cnt2 (wp_lock hdr blk).1.strong = (get_cnt2 blk.strong + 1) % 2^32 ∧
       get_cnt1 (wp_lock hdr blk).1.strong = get_cnt1 blk.strong ∧
       (wp_lock hdr blk).1.weak = blk.weak ∧
       (wp_lock hdr blk).1.pointer = blk.pointer) ∧
    (get_cnt2 blk.strong = 0 →
       (wp_lock hdr blk).1 = blk ∧ (wp_lock hdr blk).2 = ⟨0⟩) := by
  have hcp : cp_word 0 hdr = hdr := by
    simp only [cp_word]
    omega
  by_cases h0 : get_cnt2 blk.strong = 0
  · have hres : wp_lock hdr blk = (blk, ⟨0⟩) := by
      simp [wp_lock, weak_lock, hh, h0]
    rw [hres]
    simp [h0, hh]
  · have hres : wp_lock hdr blk =
        ({ blk with
            strong := pc_word (get_cnt1 blk.strong) (get_cnt2 blk.strong + 1) },
         ⟨cp_word 0 hdr⟩) := by
      simp [wp_lock, weak_lock, hh, h0]
    rw [hres]
    refine ⟨?_, ?_, fun hc => absurd hc h0⟩
    · simp only [ne_eq, SharedPtr.mk.injEq, hcp]
      exact ⟨fun _ => Nat.pos_of_ne_zero h0, fun _ => hh⟩
    · intro _
      refine ⟨rfl, ?_, ?_, ?_, rfl, rfl⟩
      · rw [hcp]
        simp only [get_ptr48]
        omega
      · simp only [pc_word, get_cnt1, get_cnt2]
        omega
      · simp only [pc_word, get_cnt1, get_cnt2]
        omega

/-- Witness for `weak_lock_spec` on a freshly constructed block. -/
theorem weak_lock_spec_witness :
    (wp_lock 7 (initial_block 99)).2 = ⟨cp_word 0 7⟩ :=
  ((weak_lock_spec 7 (initial_block 99) (by decide) (by decide)).2.1
    (by decide)).1

/-- C5 counterexample: `fetch_transfer(1)` on `PC(0, 2^32 - 1)` carries
out of the `c2` lane into the `c1` lane: the code leaves `c1 = 0`
whereas the claimed post-state has `c1 = c1 - n = 2^32 - 1`. -/
theorem fetch_transfer_carry_counterexample :
    get_cnt1 (fetch_transfer (pc_word 0 4294967295) 1).1 = 0 ∧
    (get_cnt1 (pc_word 0 4294967295) + 2^32 - 1) % 2^32 = 4294967295 ∧
    (0 : Nat) ≠ 4294967295 := by decide

/-- C5 (amended): when no carry or borrow crosses the lane boundary —
for `n ≥ 0` when `c2 + n < 2^32`, for `n < 0` when `-n ≤ c2` —
`fetch_transfer(n)` returns the pre-state and leaves the counter at
`PC(c1 - n, c2 + n)` with per-lane 32-bit wraparound. -/
theorem fetch_transfer_spec (st nbits : Nat) (hst : st < 2^64) (hn : nbits < 2^32)
    (hc : (nbits < 2^31 ∧ get_cnt2 st + nbits < 2^32) ∨
          (2^31 ≤ nbits ∧ 2^32 - nbits ≤ get_cnt2 st)) :
    (fetch_transfer st nbits).2 = st ∧
    get_cnt1 (fetch_transfer st nbits).1 = (get_cnt1 st + (2^32 - nbits)) % 2^32 ∧
    get_cnt2 (fetch_transfer st nbits).1 = (get_cnt2 st + nbits) % 2^32 := by
  rcases hc with ⟨h1, h2⟩ | ⟨h1, h2⟩
  · have hpos : (0 : Int) ≤ toInt32 nbits := by
      simp only [toInt32]
      split <;> omega
    have harg1 : get_cnt1 (pc_word (neg32 nbits) nbits) = neg32 nbits := by
      rw [get_cnt1_pc]
      simp only [neg32]
      omega
    have harg2 : get_cnt2 (pc_word (neg32 nbits) nbits) = nbits := by
      rw [get_cnt2_pc]
      omega
    simp only [fetch_transfer, apc_fetch_add, apc_fetch_sub]
    rw [if_pos hpos]
    dsimp only
    refine ⟨rfl, ?_, ?_⟩
    · rw [get_cnt1_add64 st _ hst (pc_word_lt _ _) (by rw [harg2]; omega), harg1]
      simp only [neg32]
      omega
    · rw [get_cnt2_add64, harg2]
  · have hneg : ¬ (0 : Int) ≤ toInt32 nbits := by
      simp only [toInt32]
      split <;> omega
    have harg1 : get_cnt1 (pc_word nbits (neg32 nbits)) = nbits := by
      rw [get_cnt1_pc]
      omega
    have harg2 : get_cnt2 (pc_word nbits (neg32 nbits)) = neg32 nbits := by
      rw [get_cnt2_pc]
      simp only [neg32]
      omega
    simp only [fetch_transfer, apc_fetch_add, apc_fetch_sub]
    rw [if_neg hneg]
    dsimp only
    refine ⟨rfl, ?_, ?_⟩
    · rw [get_cnt1_sub64 st _ hst (pc_word_lt _ _)
        (by rw [harg2]; simp only [neg32]; omega), harg1]
    · rw [get_cnt2_sub64 st _, harg2]
      simp only [neg32]
      omega

/-- Witness for `fetch_transfer_spec` moving 3 credits on `PC(10, 20)`. -/
theorem fetch_transfer_spec_witness :
    get_cnt2 (fetch_transfer (pc_word 10 20) 3).1 =
      (get_cnt2 (pc_word 10 20) + 3) % 2^32 :=
  (fetch_transfer_spec (pc_word 10 20) 3 (by decide) (by decide)
    (Or.inl (by decide))).2.2

/-- C6: the single-component compare-exchange helpers taking the
component by value convert `desired` to a full paired counter through the
sign/zero-extending word constructor, so a successful call installs the
extended word: on `PC(5, 7)` with `expected = 5`, `desired = 9`,
`compare_exchange_strong_c1` succeeds and leaves `PC(0, 9)` — the target
component becomes `0`, not `9`, and the other component is clobbered
from `7` to `9`; `compare_exchange_strong_c2` likewise zeroes the `c1`
component it should preserve. -/
theorem cas_component_word_clobber :
    compare_exchange_strong_c1 (pc_word 5 7) 5 9 = (9, 5, true) ∧
    compare_exchange_weak_c1 (pc_word 5 7) 5 9 = (9, 5, true) ∧
    get_cnt1 9 = 0 ∧ get_cnt2 9 = 9 ∧
    compare_exchange_strong_c2 (pc_word 5 7) 7 9 = (9, 7, true) ∧
    get_cnt1 (pc_word 5 7) = 5 ∧ get_cnt2 (pc_word 5 7) = 7 ∧
    (9 : Nat) ≠ 0 ∧ (9 : Nat) ≠ 7 ∧ (0 : Nat) ≠ 5 := by decide

/-- C7 counterexample: the constructor gives a fresh block (one strong
reference, zero live weak handles) the weak word `0`, so `weak.cnt2` is
the number of live weak handles, not that number plus one. -/
theorem weak_init_counterexample :
    get_cnt2 (initial_block 7).strong = 1 ∧
    get_cnt2 (initial_block 7).weak = 0 ∧
    (0 : Nat) ≠ 0 + 1 := by decide

/-- C7 (amended): the block's `weak.cnt2` equals the number of live weak
handles, with no implicit extra reference: this holds at construction
and is preserved by every `acquire_weak` / `release_weak({0, 1})` pair
the weak handles perform (as long as fewer than `2^32` handles are ever
simultaneously live). -/
theorem weak_count_spec (w n : Nat) (h : WeakTrace w n) (hn : n < 2^32) :
    get_cnt2 w = n ∧ get_cnt1 w = 0 := by
  have hw := weakTrace_word h
  subst hw
  unfold get_cnt1 get_cnt2
  omega

/-- Witness for `weak_count_spec`: two binds and one unbind leave one
live weak handle and `weak.cnt2 = 1`. -/
theorem weak_count_spec_witness :
    get_cnt2 (sub64 (add64 (add64 0 (pc_word 0 1)) (pc_word 0 1)) (pc_word 0 1)) = 1 :=
  (weak_count_spec _ _
    (WeakTrace.rel (WeakTrace.acq (WeakTrace.acq WeakTrace.init)) (by decide))
    (by decide)).1

/-- C8 counterexample: the post-increment operator returns the counter
value before the update (`5`), not the new value (`6`). -/
theorem postinc_counterexample :
    (acp_postinc (cp_word 5 3)).2 = 5 ∧
    get_ctr (acp_postinc (cp_word 5 3)).1 = 6 ∧
    (5 : Nat) ≠ 6 := by decide

/-- C8 (amended): `fetch_add`/`fetch_sub` on the atomic counted pointer
update only the 16-bit counter lane (mod `2^16`) and leave the 48
pointer bits untouched, returning the previous word; the two pre-form
operators return the updated counter and the two post-form operators
return the pre-update counter. -/
theorem counted_arith_spec (st n : Nat) (hst : st < 2^64) :
    get_ptr48 (acp_fetch_add st n).1 = get_ptr48 st ∧
    get_ctr (acp_fetch_add st n).1 = (get_ctr st + n % 2^16) % 2^16 ∧
    (acp_fetch_add st n).2 = st ∧
    get_ptr48 (acp_fetch_sub st n).1 = get_ptr48 st ∧
    get_ctr (acp_fetch_sub st n).1 = (get_ctr st + (2^16 - n % 2^16)) % 2^16 ∧
    (acp_fetch_sub st n).2 = st ∧
    (acp_preinc st).2 = get_ctr (acp_preinc st).1 ∧
    (acp_predec st).2 = get_ctr (acp_predec st).1 ∧
    (acp_postinc st).2 = get_ctr st ∧
    (acp_postdec st).2 = get_ctr st := by
  refine ⟨?_, ?_, ?_, ?_, ?_, ?_, ?_, ?_, ?_, ?_⟩ <;>
    simp only [acp_preinc, acp_predec, acp_postinc, acp_postdec,
      acp_fetch_add, acp_fetch_sub, add64, sub64, get_ptr48, get_ctr] <;>
    omega

/-- Witness for `counted_arith_spec` at counter 5, pointer 3. -/
theorem counted_arith_spec_witness :
    get_ctr (acp_fetch_add (cp_word 5 3) 2).1 =
      (get_ctr (cp_word 5 3) + 2 % 2^16) % 2^16 :=
  (counted_arith_spec (cp_word 5 3) 2 (by decide)).2.1

/-- C9: paired-counter laws: `(a + b) - b == a` and commutativity of
`+` (componentwise, 32-bit wraparound per lane); word equality coincides
with componentwise equality; the pointwise order is irreflexive and
asymmetric, and is not total: `PC(0, 1)` and `PC(1, 0)` are pairwise
incomparable and unequal. -/
theorem paired_counter_laws :
    (∀ a b : Nat, a < 2^64 → pc_sub (pc_add a b) b = a) ∧
    (∀ a b : Nat, pc_add a b = pc_add b a) ∧
    (∀ a b : Nat, a < 2^64 → b < 2^64 →
       (a = b ↔ get_cnt1 a = get_cnt1 b ∧ get_cnt2 a = get_cnt2 b)) ∧
    (∀ a : Nat, pc_gt a a = false) ∧
    (∀ a b : Nat, pc_gt a b = true → pc_gt b a = false) ∧
    (pc_lt (pc_word 0 1) (pc_word 1 0) = false ∧
     pc_gt (pc_word 0 1) (pc_word 1 0) = false ∧
     pc_word 0 1 ≠ pc_word 1 0) := by
  refine ⟨?_, ?_, ?_, ?_, ?_, by decide⟩
  · intro a b ha
    unfold pc_sub pc_add pc_word neg32 get_cnt1 get_cnt2
    omega
  · intro a b
    unfold pc_add pc_word get_cnt1 get_cnt2
    omega
  · intro a b ha hb
    unfold get_cnt1 get_cnt2
    omega
  · intro a
    simp [pc_gt]
  · intro a b h
    simp only [pc_gt, Bool.and_eq_true, decide_eq_true_eq] at h
    simp only [pc_gt, Bool.and_eq_false_iff, decide_eq_false_iff_not, not_lt]
    exact Or.inl (le_of_lt h.1)

/-- Witness for `paired_counter_laws` at `a = PC(0, 5)`, `b = PC(0, 7)`. -/
theorem paired_counter_laws_witness :
    pc_sub (pc_add (pc_word 0 5) (pc_word 0 7)) (pc_word 0 7) = pc_word 0 5 :=
  paired_counter_laws.1 (pc_word 0 5) (pc_word 0 7) (by decide)

/-- C10: construction from a null raw pointer and `reset` with a null
raw pointer allocate no control block and produce the null handle, whose
`get`, `use_count`, `weak_count` are zero, whose boolean conversion is
false, and whose destruction performs no block operation. -/
theorem null_handle_spec (heap : Nat → BlockState) (sp : SharedPtr) (freshHdr : Nat) :
    sp_from_raw freshHdr 0 = (⟨0⟩, none) ∧
    (sp_reset_raw sp freshHdr 0).2 = (⟨0⟩, none) ∧
    (sp_reset_raw sp freshHdr 0).1 = sp_dtor_ops sp ∧
    sp_get ⟨0⟩ heap = 0 ∧
    sp_use_count ⟨0⟩ heap = 0 ∧
    sp_weak_count ⟨0⟩ heap = 0 ∧
    sp_to_bool ⟨0⟩ heap = false ∧
    sp_dtor_ops ⟨0⟩ = [] := by
  simp [sp_from_raw, sp_reset_raw, sp_get, sp_use_count, sp_weak_count,
    sp_to_bool, sp_dtor_ops, get_ptr48]

end jps
